import Mathlib

/-!
# HelixMind — verification of the Session Memory & RAG pipeline client

Shallow embedding of the HelixMind frontend (Next.js API client `lib/api.ts`,
page `app/page.tsx`, components `FileUpload.tsx`, `MemoryPanel.tsx`) together
with spec-modelled definitions for the FastAPI backend pieces (MemoryStore
eviction, ClearMemory) that are not part of the shown sources.

All definitions are executable; the theorems settle the frozen claims about
the specification of this repository.
-/

namespace HelixMind

/-! ## Data model (from the `lib/api.ts` interfaces) -/

/-- `ChartData` from `lib/api.ts`: `{type, title, html?, image_base64?, insights?}`
(the arbitrary `data` payload is omitted; no claim inspects it). -/
structure ChartData where
  type : String
  title : String
  html : Option String := none
  image_base64 : Option String := none
  insights : Option String := none
  deriving Repr, DecidableEq

/-- `MemoryItem` from `lib/api.ts`: `{id, content, timestamp}` (content is an
opaque payload, embedded as a string). -/
structure MemoryItem where
  id : String
  content : String
  timestamp : String
  deriving Repr, DecidableEq

/-! ## JavaScript string primitives

The frontend compares strings with the JS `String.prototype` methods; they
are embedded structurally on character lists so that concrete instances
evaluate by kernel reduction. -/

/-- Whether `p` is a prefix of `s`, on character lists. -/
def charsStart (p s : List Char) : Bool :=
  match p, s with
  | [], _ => true
  | _ :: _, [] => false
  | a :: ps, b :: ss => a == b && charsStart ps ss

/-- JS `s.startsWith(p)`. -/
def jsStartsWith (s p : String) : Bool := charsStart p.data s.data

/-- JS `s.endsWith(p)`. -/
def jsEndsWith (s p : String) : Bool := charsStart p.data.reverse s.data.reverse

/-- JS `s.trim()`: strip leading and trailing whitespace. -/
def jsTrim (s : String) : String :=
  String.mk (((s.data.dropWhile Char.isWhitespace).reverse.dropWhile
    Char.isWhitespace).reverse)

/-- `AnalysisResult` from `lib/api.ts`. -/
structure AnalysisResult where
  session_id : String
  result : String
  thinking_trace : List String
  charts : List ChartData
  memory_context : List MemoryItem
  timestamp : String
  deriving Repr, DecidableEq

/-! ## MemoryStore (spec-modelled)

The FastAPI backend that owns MemoryStore is not among the shown sources; the
definitions in this section are modelled from the spec. -/

/-- `MAX_MEMORY_ITEMS` configuration option, default 100 (README `.env`
example and spec §6). -/
def MAX_MEMORY_ITEMS : Nat := 100

/-- Modelled from the spec: a `MemoryRecord` (§3) — the backend MemoryStore is
not among the shown sources. Fields `{id, session_id, content, created_at}`
(kind and embedding omitted; no claim inspects them). -/
structure MemoryRecord where
  id : Nat
  session_id : String
  content : String
  created_at : Nat
  deriving Repr, DecidableEq

namespace MemoryStore

/-- Modelled from the spec: `MemoryStore.Append` with the §4.5 eviction policy —
the backend MemoryStore is not among the shown sources.  A session's store is
its append-only log, a list in chronological (`created_at` ascending) order,
oldest first, since records are appended as they are created (§3 "append-only
log", "FIFO by created_at").  After appending, while the count exceeds
`MAX_MEMORY_ITEMS` the oldest records are deleted until the count equals
`MAX_MEMORY_ITEMS`; deleting the oldest records of a chronological log is
dropping its front. -/
def append (log : List MemoryRecord) (r : MemoryRecord) : List MemoryRecord :=
  let log2 := log ++ [r]
  if log2.length > MAX_MEMORY_ITEMS then
    log2.drop (log2.length - MAX_MEMORY_ITEMS)
  else
    log2

/-- A whole sequence of `Append`s applied to an initially empty session log. -/
def appendAll (rs : List MemoryRecord) : List MemoryRecord :=
  rs.foldl append []

/-- Modelled from the spec: `MemoryStore.Clear` (§4.5 "purges all records …
for the session") — the backend `DELETE /memory/{session_id}` handler is not
among the shown sources.  The whole store is the list of records of all
sessions; `clear` removes exactly the given session's records.  It is a total
function: it never errors, also on a session with no records. -/
def clear (session_id : String) (store : List MemoryRecord) : List MemoryRecord :=
  store.filter (fun r => r.session_id != session_id)

end MemoryStore

/-- `clearMemories` in `MemoryPanel.tsx`: on success of the DELETE request the
panel state becomes the empty memory list (`setMemories([])`), whatever it
held before. -/
def clearMemoriesPanel (_memories : List MemoryItem) : List MemoryItem := []

/-! ## Streaming client (`analyzeWithStreaming` in `lib/api.ts`) -/

/-- One parsed server-sent event, after `JSON.parse` of a `data: ` line:
the `switch (data.type)` in `analyzeWithStreaming` distinguishes `thinking`
(string content), `response` (string content), `chart` (chart content) and
`complete` (carrying `session_id`); any other `type` falls through the
switch and is ignored, embedded by `other`. -/
inductive StreamEvent where
  | thinking (content : String)
  | response (content : String)
  | chart (content : ChartData)
  | complete (session_id : String)
  | other
  deriving Repr, DecidableEq

/-- The accumulator `let result: AnalysisResult = {session_id: '', result: '',
thinking_trace: [], charts: [], memory_context: [], timestamp: new
Date().toISOString()}` of `analyzeWithStreaming`; `now` is the ISO timestamp
taken at start. -/
def initResult (now : String) : AnalysisResult :=
  { session_id := "", result := "", thinking_trace := [], charts := [],
    memory_context := [], timestamp := now }

/-- The `switch (data.type)` body of `analyzeWithStreaming`, acting on the
accumulated `AnalysisResult` paired with the list of `onThinkingStep`
callback invocations made so far: `thinking` pushes onto `thinking_trace`
and invokes the callback, `response` appends to the `result` text, `chart`
pushes onto `charts`, `complete` sets `session_id`, anything else is
ignored. -/
def processEvent : AnalysisResult × List String → StreamEvent → AnalysisResult × List String
  | (st, cbs), StreamEvent.thinking c =>
      ({ st with thinking_trace := st.thinking_trace ++ [c] }, cbs ++ [c])
  | (st, cbs), StreamEvent.response c =>
      ({ st with result := st.result ++ c }, cbs)
  | (st, cbs), StreamEvent.chart c =>
      ({ st with charts := st.charts ++ [c] }, cbs)
  | (st, cbs), StreamEvent.complete sid =>
      ({ st with session_id := sid }, cbs)
  | acc, StreamEvent.other => acc

/-- One line of the decoded stream, as handled by the `for (const line of
lines)` loop of `analyzeWithStreaming`: a line is acted on only when it
starts with `data: `; its payload (`line.slice(6)`) is then parsed —
`JSON.parse` wrapped in `try … catch` is embedded as the partial `parse`
function, `none` meaning invalid JSON, which is skipped without error.  In
every other case the accumulator is returned unchanged. -/
def processLine (parse : String → Option StreamEvent)
    (acc : AnalysisResult × List String) (line : String) :
    AnalysisResult × List String :=
  if jsStartsWith line "data: " then
    match parse (line.drop 6) with
    | some ev => processEvent acc ev
    | none => acc
  else acc

/-- The contents of the `thinking` events of a stream, in arrival order. -/
def thinkingContents : List StreamEvent → List String
  | [] => []
  | StreamEvent.thinking c :: es => c :: thinkingContents es
  | StreamEvent.response _ :: es => thinkingContents es
  | StreamEvent.chart _ :: es => thinkingContents es
  | StreamEvent.complete _ :: es => thinkingContents es
  | StreamEvent.other :: es => thinkingContents es

/-- The concatenation, in arrival order, of the contents of the `response`
events of a stream. -/
def responsesText : List StreamEvent → String
  | [] => ""
  | StreamEvent.response c :: es => c ++ responsesText es
  | StreamEvent.thinking _ :: es => responsesText es
  | StreamEvent.chart _ :: es => responsesText es
  | StreamEvent.complete _ :: es => responsesText es
  | StreamEvent.other :: es => responsesText es

/-- The contents of the `chart` events of a stream, in arrival order. -/
def chartContents : List StreamEvent → List ChartData
  | [] => []
  | StreamEvent.chart c :: es => c :: chartContents es
  | StreamEvent.thinking _ :: es => chartContents es
  | StreamEvent.response _ :: es => chartContents es
  | StreamEvent.complete _ :: es => chartContents es
  | StreamEvent.other :: es => chartContents es

/-- The `session_id` carried by the last `complete` event of a stream, or the
default `d` when the stream holds no `complete` event. -/
def lastSessionId (d : String) : List StreamEvent → String
  | [] => d
  | StreamEvent.complete sid :: es => lastSessionId sid es
  | StreamEvent.thinking _ :: es => lastSessionId d es
  | StreamEvent.response _ :: es => lastSessionId d es
  | StreamEvent.chart _ :: es => lastSessionId d es
  | StreamEvent.other :: es => lastSessionId d es

/-! ## Buffered analyze call (`analyzeData` in `lib/api.ts`) -/

/-- `AnalyzeOptions` from `lib/api.ts`, without the callback itself:
`{query, files, sessionId}`; only the number of files matters to any
claim. -/
structure AnalyzeOptions where
  query : String
  numFiles : Nat
  sessionId : Option String
  deriving Repr, DecidableEq

/-- The fixed, client-generated `thinkingSteps` array `analyzeData` feeds to
`onThinkingStep` before posting the request. -/
def thinkingSteps : List String :=
  ["🔬 Initializing analysis pipeline...",
   "📄 Processing uploaded documents...",
   "🧬 Applying AI reasoning...",
   "📊 Generating visualizations..."]

/-- One externally observable event of a run of `analyzeData`: an
`onThinkingStep` callback invocation, the posting of the HTTP request, or
the arrival of the complete backend response (which carries the final
answer and the full `thinking_trace`). -/
inductive ClientEvent where
  | deliver (step : String)
  | requestSent
  | responseReceived
  deriving Repr, DecidableEq

/-- The order of observable events in a run of `analyzeData` (`lib/api.ts`):
if a callback was supplied, the four fixed `thinkingSteps` are delivered
first, one at a time; then the request is posted to the buffered `/analyze`
endpoint and its complete response arrives; only then is each entry of the
backend's `thinking_trace` forwarded to the callback, in order.  The
options — query text, files, session id — play no part in the schedule. -/
def analyzeDataTimeline (opts : AnalyzeOptions) (hasCallback : Bool)
    (backendTrace : List String) : List ClientEvent :=
  (if hasCallback then thinkingSteps.map ClientEvent.deliver else [])
    ++ ClientEvent.requestSent ::
       ClientEvent.responseReceived ::
       (if hasCallback then backendTrace.map ClientEvent.deliver else [])

/-- The steps delivered to the caller's callback over a whole run, in
delivery order. -/
def deliveries : List ClientEvent → List String
  | [] => []
  | ClientEvent.deliver s :: es => s :: deliveries es
  | ClientEvent.requestSent :: es => deliveries es
  | ClientEvent.responseReceived :: es => deliveries es

/-- The part of a run after the complete backend response has arrived —
after this point the final answer exists, so a delivery here is buffered,
not live. -/
def afterResponse : List ClientEvent → List ClientEvent
  | [] => []
  | ClientEvent.responseReceived :: es => es
  | ClientEvent.deliver _ :: es => afterResponse es
  | ClientEvent.requestSent :: es => afterResponse es

/-- The steps delivered to the callback before the request is sent to the
backend. -/
def deliveriesBeforeRequest : List ClientEvent → List String
  | [] => []
  | ClientEvent.deliver s :: es => s :: deliveriesBeforeRequest es
  | ClientEvent.requestSent :: _ => []
  | ClientEvent.responseReceived :: es => deliveriesBeforeRequest es

/-! ## Analyze request guard (`app/page.tsx`) -/

/-- The possible immediate outcomes of submitting an analyze request from
the page: the handler proceeds with the request, returns silently, or
raises an error carrying a code (the last never happens in the code; the
constructor exists so the spec's claimed behaviour is expressible). -/
inductive ClientOutcome where
  | proceed
  | silentReturn
  | errorRaised (code : String)
  deriving Repr, DecidableEq

/-- The guard `if (!query.trim() && files.length === 0) return;` opening
`handleAnalyze` in `app/page.tsx`: a query that is empty after trimming,
with no files, returns silently — no error of any kind is raised — and any
other input proceeds with the request. -/
def handleAnalyzeGuard (query : String) (numFiles : Nat) : ClientOutcome :=
  if jsTrim query = "" ∧ numFiles = 0 then ClientOutcome.silentReturn
  else ClientOutcome.proceed

/-- The Analyze button `disabled` condition in `app/page.tsx`:
`isAnalyzing || (!query.trim() && files.length === 0)`. -/
def analyzeDisabled (isAnalyzing : Bool) (query : String) (numFiles : Nat) : Bool :=
  isAnalyzing || (jsTrim query == "" && numFiles == 0)

/-! ## `handleAnalyze` as a state transition (`app/page.tsx`) -/

/-- The Home component state touched by `handleAnalyze`. -/
structure HomeState where
  sessionId : Option String
  thinkingSteps : List String
  result : Option AnalysisResult
  charts : List ChartData
  isAnalyzing : Bool
  deriving Repr, DecidableEq

/-- Outcome of the awaited `analyzeData` call inside `handleAnalyze`. -/
inductive RunOutcome where
  | success (r : AnalysisResult)
  | failure
  deriving Repr, DecidableEq

/-- The terminal step the `catch` block of `handleAnalyze` appends. -/
def failMessage : String := "❌ Analysis failed. Please try again."

/-- `handleAnalyze` in `app/page.tsx` as a state transition.  The guard
returns the state unchanged on an empty request.  Otherwise the handler
clears `thinkingSteps`, `result` and `charts` and awaits `analyzeData`;
`delivered` is the list of steps its `onThinkingStep` callback appended to
the cleared `thinkingSteps` (each via an append of one step) before the run
ended.  On success the response is stored and its `session_id` adopted; on
failure the `catch` block appends the terminal `failMessage` after the
already delivered steps — preserving them — while `result` and `charts`
keep their cleared values; `finally` resets `isAnalyzing`. -/
def handleAnalyze (st : HomeState) (query : String) (numFiles : Nat)
    (delivered : List String) (outcome : RunOutcome) : HomeState :=
  if jsTrim query = "" ∧ numFiles = 0 then st
  else
    match outcome with
    | RunOutcome.success r =>
        { st with sessionId := some r.session_id, thinkingSteps := delivered,
                  result := some r, charts := r.charts, isAnalyzing := false }
    | RunOutcome.failure =>
        { st with thinkingSteps := delivered ++ [failMessage], result := none,
                  charts := [], isAnalyzing := false }

/-! ## File acceptance (`FileUpload.tsx` dropzone configuration) -/

/-- A browser `File` as the dropzone validators see it: `name`, MIME `type`
and byte `size`.  The library lowercases names and MIME types before
comparing; inputs are taken as already lowercase. -/
structure JSFile where
  name : String
  type : String
  size : Nat
  deriving Repr, DecidableEq

/-- `maxSize: 50 * 1024 * 1024` from the `useDropzone` options in
`FileUpload.tsx` (50 MB). -/
def maxUploadSize : Nat := 50 * 1024 * 1024

/-- The accept attribute react-dropzone builds from the `accept` object in
`FileUpload.tsx`: for each entry, the MIME key followed by its listed
extensions. -/
def acceptAttr : List String :=
  ["application/pdf", ".pdf",
   "image/*", ".png", ".jpg", ".jpeg", ".gif", ".webp",
   "video/*", ".mp4", ".webm", ".mov",
   "text/*", ".txt", ".csv", ".fasta", ".pdb"]

/-- The part of a MIME type before the first slash (the attr-accept
`replace` of everything from the first slash on). -/
def mimeBase (m : String) : String :=
  String.mk (m.data.takeWhile (fun c => c != '/'))

/-- One acceptor of the attr-accept check react-dropzone uses: an acceptor
starting with a dot matches by filename extension, one ending in `/*`
matches the MIME base type, anything else matches the full MIME type. -/
def accepts (f : JSFile) (t : String) : Bool :=
  if jsStartsWith t "." then jsEndsWith f.name t
  else if jsEndsWith t "/*" then mimeBase f.type == mimeBase t
  else f.type == t

/-- Whether the dropzone of `FileUpload.tsx` accepts an offered file: some
configured acceptor matches it and its size is within `maxSize`
(react-dropzone rejects a file as too large exactly when
`file.size > maxSize`). -/
def fileAccepted (f : JSFile) : Bool :=
  acceptAttr.any (accepts f) && decide (f.size ≤ maxUploadSize)

/-- The spec's §6 attachment mime allow-list, written from the spec's words
for comparison with the dropzone behaviour: pdf, `image/*`, `video/*`,
`text/plain`, fasta, pdb. -/
def specAllowList (f : JSFile) : Bool :=
  f.type == "application/pdf" || mimeBase f.type == "image" ||
  mimeBase f.type == "video" || f.type == "text/plain" ||
  jsEndsWith f.name ".fasta" || jsEndsWith f.name ".pdb"

/-! ## Analyze timeout (`analyzeData` axios configuration) -/

/-- The axios request configuration `analyzeData` passes to `axios.post`:
`{timeout: 120000}`, the 2-minute ceiling for AI processing. -/
structure AxiosRequestConfig where
  timeout : Nat
  deriving Repr, DecidableEq

/-- The configuration object of the `/analyze` post in `lib/api.ts`. -/
def analyzeRequestConfig : AxiosRequestConfig := { timeout := 120000 }

/-- Outcome of an axios request: resolution with a response, or abortion
with a timeout error. -/
inductive AxiosOutcome where
  | resolved
  | timeoutError
  deriving Repr, DecidableEq

/-- Modelled axios contract (external library): a request that has not
completed after `config.timeout` milliseconds is aborted with a timeout
error instead of running on; a request completing within the ceiling
resolves. -/
def axiosOutcome (config : AxiosRequestConfig) (elapsedMs : Nat) : AxiosOutcome :=
  if config.timeout < elapsedMs then AxiosOutcome.timeoutError
  else AxiosOutcome.resolved

end HelixMind

/-! ## Theorems -/

namespace HelixMind

theorem MemoryStore.append_eq_drop (log : List MemoryRecord) (r : MemoryRecord) :
    MemoryStore.append log r =
      (log ++ [r]).drop (log.length + 1 - MAX_MEMORY_ITEMS) := by
  unfold MemoryStore.append
  simp only [List.length_append, List.length_cons, List.length_nil]
  split
  · rfl
  · next h =>
    have : log.length + 1 - MAX_MEMORY_ITEMS = 0 := by omega
    rw [this, List.drop_zero]

theorem MemoryStore.foldl_append_eq (rs : List MemoryRecord) :
    ∀ log : List MemoryRecord, log.length ≤ MAX_MEMORY_ITEMS →
      rs.foldl MemoryStore.append log =
        (log ++ rs).drop (log.length + rs.length - MAX_MEMORY_ITEMS) := by
  induction rs with
  | nil =>
    intro log hlen
    have h0 : log.length - MAX_MEMORY_ITEMS = 0 := by omega
    simp [h0]
  | cons r t ih =>
    intro log hlen
    have hstep := MemoryStore.append_eq_drop log r
    have hk : log.length + 1 - MAX_MEMORY_ITEMS ≤ (log ++ [r]).length := by
      simp only [List.length_append, List.length_cons, List.length_nil]
      omega
    have hlen2 : (MemoryStore.append log r).length ≤ MAX_MEMORY_ITEMS := by
      rw [hstep, List.length_drop]
      simp only [List.length_append, List.length_cons, List.length_nil]
      omega
    rw [List.foldl_cons, ih (MemoryStore.append log r) hlen2, hstep]
    rw [List.length_drop]
    have hsplit : ((log ++ [r]).drop (log.length + 1 - MAX_MEMORY_ITEMS)) ++ t =
        ((log ++ [r]) ++ t).drop (log.length + 1 - MAX_MEMORY_ITEMS) :=
      (List.drop_append_of_le_length hk).symm
    rw [hsplit, List.drop_drop]
    have harr : (log ++ [r]) ++ t = log ++ (r :: t) := by simp
    rw [harr]
    congr 1
    simp only [List.length_append, List.length_cons, List.length_nil]
    omega

theorem string_append_assoc (a b c : String) : a ++ b ++ c = a ++ (b ++ c) := by
  cases a with
  | mk da =>
    cases b with
    | mk db =>
      cases c with
      | mk dc =>
        show String.mk (da ++ db ++ dc) = String.mk (da ++ (db ++ dc))
        rw [List.append_assoc]

/-- Folding the event-processing step over a stream, from any starting
accumulator: the four event kinds are reflected exactly as the spec states,
and nothing else changes. -/
theorem processEvent_foldl (events : List StreamEvent) :
    ∀ (st : AnalysisResult) (cbs : List String),
      (events.foldl processEvent (st, cbs)).1.thinking_trace
          = st.thinking_trace ++ thinkingContents events ∧
      (events.foldl processEvent (st, cbs)).1.result
          = st.result ++ responsesText events ∧
      (events.foldl processEvent (st, cbs)).1.charts
          = st.charts ++ chartContents events ∧
      (events.foldl processEvent (st, cbs)).1.session_id
          = lastSessionId st.session_id events ∧
      (events.foldl processEvent (st, cbs)).1.memory_context = st.memory_context ∧
      (events.foldl processEvent (st, cbs)).1.timestamp = st.timestamp ∧
      (events.foldl processEvent (st, cbs)).2 = cbs ++ thinkingContents events := by
  induction events with
  | nil =>
    intro st cbs
    simp [thinkingContents, responsesText, chartContents, lastSessionId]
  | cons e es ih =>
    intro st cbs
    cases e with
    | thinking c =>
      have h := ih { st with thinking_trace := st.thinking_trace ++ [c] } (cbs ++ [c])
      simpa [processEvent, thinkingContents, responsesText, chartContents,
        lastSessionId, List.append_assoc] using h
    | response c =>
      have h := ih { st with result := st.result ++ c } cbs
      simpa [processEvent, thinkingContents, responsesText, chartContents,
        lastSessionId, string_append_assoc] using h
    | chart c =>
      have h := ih { st with charts := st.charts ++ [c] } cbs
      simpa [processEvent, thinkingContents, responsesText, chartContents,
        lastSessionId, List.append_assoc] using h
    | complete sid =>
      have h := ih { st with session_id := sid } cbs
      simpa [processEvent, thinkingContents, responsesText, chartContents,
        lastSessionId] using h
    | other =>
      have h := ih st cbs
      simpa [processEvent, thinkingContents, responsesText, chartContents,
        lastSessionId] using h

theorem deliveries_append (a b : List ClientEvent) :
    deliveries (a ++ b) = deliveries a ++ deliveries b := by
  induction a with
  | nil => rfl
  | cons e es ih => cases e <;> simp [deliveries, ih]

theorem deliveries_map (l : List String) :
    deliveries (l.map ClientEvent.deliver) = l := by
  induction l with
  | nil => rfl
  | cons s t ih => simp [deliveries, ih]

theorem accepts_pdf_mime (f : JSFile) :
    accepts f "application/pdf" = (f.type == "application/pdf") := rfl

theorem accepts_image_any (f : JSFile) :
    accepts f "image/*" = (mimeBase f.type == "image") := rfl

theorem accepts_video_any (f : JSFile) :
    accepts f "video/*" = (mimeBase f.type == "video") := rfl

theorem accepts_text_any (f : JSFile) :
    accepts f "text/*" = (mimeBase f.type == "text") := rfl

theorem accepts_fasta_ext (f : JSFile) :
    accepts f ".fasta" = jsEndsWith f.name ".fasta" := rfl

theorem accepts_pdb_ext (f : JSFile) :
    accepts f ".pdb" = jsEndsWith f.name ".pdb" := rfl

end HelixMind

/-- **C1.** For every session and every sequence of Append operations, the
number of stored memory records for that session is at most
`MAX_MEMORY_ITEMS` (default 100) after each Append completes; when a new
write exceeds the bound, the oldest records by `created_at` are evicted until
the count equals `MAX_MEMORY_ITEMS`.  Formally: after any sequence `rs` of
appends into an initially empty session log, the log holds exactly the last
`MAX_MEMORY_ITEMS` records appended (everything older has been evicted), so
its size never exceeds the bound — and since this is proved for every `rs`,
it holds after every intermediate Append as well (take the prefix). -/
theorem C1_memory_bound (rs : List HelixMind.MemoryRecord) :
    HelixMind.MAX_MEMORY_ITEMS = 100 ∧
    (HelixMind.MemoryStore.appendAll rs).length ≤ HelixMind.MAX_MEMORY_ITEMS ∧
    HelixMind.MemoryStore.appendAll rs =
      rs.drop (rs.length - HelixMind.MAX_MEMORY_ITEMS) := by
  refine ⟨rfl, ?_, ?_⟩
  · unfold HelixMind.MemoryStore.appendAll
    rw [HelixMind.MemoryStore.foldl_append_eq rs [] (by simp)]
    rw [List.length_drop]
    simp only [List.nil_append, List.length_nil, Nat.zero_add]
    omega
  · unfold HelixMind.MemoryStore.appendAll
    rw [HelixMind.MemoryStore.foldl_append_eq rs [] (by simp)]
    simp

/-- **C3.** For every stream of events consumed by the streaming Analyze
variant (`analyzeWithStreaming`), each `thinking` event is appended to
`thinking_trace` and forwarded to the callback, the contents of `response`
events are concatenated in arrival order into the result text, each `chart`
event is appended to the charts sequence, and a `complete` event sets
`session_id`; the final `AnalysisResult` reflects exactly these four event
kinds (in particular `memory_context` and `timestamp` keep their initial
values, and events of any other type change nothing). -/
theorem C3_stream_events (events : List HelixMind.StreamEvent) (now : String) :
    (events.foldl HelixMind.processEvent (HelixMind.initResult now, [])).1.thinking_trace
        = HelixMind.thinkingContents events ∧
    (events.foldl HelixMind.processEvent (HelixMind.initResult now, [])).2
        = HelixMind.thinkingContents events ∧
    (events.foldl HelixMind.processEvent (HelixMind.initResult now, [])).1.result
        = HelixMind.responsesText events ∧
    (events.foldl HelixMind.processEvent (HelixMind.initResult now, [])).1.charts
        = HelixMind.chartContents events ∧
    (events.foldl HelixMind.processEvent (HelixMind.initResult now, [])).1.session_id
        = HelixMind.lastSessionId "" events ∧
    (events.foldl HelixMind.processEvent (HelixMind.initResult now, [])).1.memory_context
        = [] ∧
    (events.foldl HelixMind.processEvent (HelixMind.initResult now, [])).1.timestamp
        = now := by
  have h := HelixMind.processEvent_foldl events (HelixMind.initResult now) []
  simp only [HelixMind.initResult] at h
  obtain ⟨h1, h2, h3, h4, h5, h6, h7⟩ := h
  refine ⟨?_, ?_, ?_, ?_, ?_, ?_, ?_⟩ <;>
    simp_all [HelixMind.initResult]

/-- **C2 counterexample.** The claim says trace events reach the caller as
soon as they are produced, before the overall operation completes — live,
not buffered.  `analyzeData` (the exported analyze call, which is the one
given a thinking-step callback) posts to the buffered `/analyze` endpoint:
on a run whose backend trace is the single step shown, that step is
delivered only in the part of the run after the complete response — final
answer included — has arrived, so the delivery is buffered, not live. -/
theorem C2_counterexample :
    HelixMind.deliveries (HelixMind.afterResponse
        (HelixMind.analyzeDataTimeline ⟨"compare BRCA1 variants", 0, none⟩ true
          ["Examining sequence homology"]))
      = ["Examining sequence homology"] ∧
    (["Examining sequence homology"] : List String) ≠ [] := by
  exact ⟨rfl, by simp⟩

/-- **C2 amended.** For every `analyzeData` call that supplies a
thinking-step callback, trace events are delivered one at a time in the
same order the backend emitted them, and all before the call returns; but
the backend's trace events are forwarded only after the backend response
has completely arrived (buffered delivery), the sole deliveries preceding
the response being the four client-generated placeholder steps.  (The live
streaming variant `analyzeWithStreaming` exists in `lib/api.ts` but is
unexported and never called.) -/
theorem C2_amended_buffered_order (opts : HelixMind.AnalyzeOptions)
    (backendTrace : List String) :
    HelixMind.deliveries (HelixMind.analyzeDataTimeline opts true backendTrace)
        = HelixMind.thinkingSteps ++ backendTrace ∧
    HelixMind.deliveries (HelixMind.afterResponse
        (HelixMind.analyzeDataTimeline opts true backendTrace)) = backendTrace := by
  constructor
  · simp [HelixMind.analyzeDataTimeline, HelixMind.thinkingSteps,
      HelixMind.deliveries_append, HelixMind.deliveries, HelixMind.deliveries_map]
  · simp [HelixMind.analyzeDataTimeline, HelixMind.thinkingSteps,
      HelixMind.afterResponse, HelixMind.deliveries_map]

/-- **C4 counterexample.** The claim says an empty request fails with an
`EmptyRequestError`; in `app/page.tsx` the guard of `handleAnalyze` simply
returns — on the empty query with no files the outcome is a silent return,
not a raised error. -/
theorem C4_counterexample :
    HelixMind.handleAnalyzeGuard "" 0 = HelixMind.ClientOutcome.silentReturn ∧
    HelixMind.handleAnalyzeGuard "" 0
      ≠ HelixMind.ClientOutcome.errorRaised "EmptyRequestError" := by
  exact ⟨by decide, by decide⟩

/-- **C4 amended.** For every request in which the query is empty after
trimming and no attachment is present, the operation does not proceed: the
`handleAnalyze` guard returns silently without sending anything, and the
Analyze button is disabled — but no `EmptyRequestError` (nor any error) is
surfaced.  For every request with a non-empty trimmed query or at least one
attachment, validation passes: the guard proceeds and the button is
enabled (when no analysis is in flight). -/
theorem C4_amended_empty_request (q : String) (n : Nat) :
    (HelixMind.jsTrim q = "" → n = 0 →
      HelixMind.handleAnalyzeGuard q n = HelixMind.ClientOutcome.silentReturn ∧
      HelixMind.analyzeDisabled false q n = true) ∧
    (HelixMind.jsTrim q ≠ "" ∨ n ≠ 0 →
      HelixMind.handleAnalyzeGuard q n = HelixMind.ClientOutcome.proceed ∧
      HelixMind.analyzeDisabled false q n = false) := by
  constructor
  · intro h1 h2
    constructor
    · simp [HelixMind.handleAnalyzeGuard, h1, h2]
    · simp [HelixMind.analyzeDisabled, h1, h2]
  · intro h
    have hng : ¬(HelixMind.jsTrim q = "" ∧ n = 0) := by tauto
    constructor
    · simp [HelixMind.handleAnalyzeGuard, hng]
    · rcases h with h | h <;> simp [HelixMind.analyzeDisabled, h]

/-- **C4 witness.** The amended theorem applied at the empty request and at
a concrete non-empty query. -/
theorem C4_witness :
    (HelixMind.handleAnalyzeGuard "" 0 = HelixMind.ClientOutcome.silentReturn ∧
      HelixMind.analyzeDisabled false "" 0 = true) ∧
    (HelixMind.handleAnalyzeGuard "BRCA1 mutations" 0
        = HelixMind.ClientOutcome.proceed ∧
      HelixMind.analyzeDisabled false "BRCA1 mutations" 0 = false) :=
  ⟨(C4_amended_empty_request "" 0).1 (by decide) rfl,
   (C4_amended_empty_request "BRCA1 mutations" 0).2 (Or.inl (by decide))⟩

/-- **C5 counterexample.** The claim says any file whose mime class is
outside the allow-list {pdf, image/*, video/*, text/plain, fasta, pdb} is
rejected; the dropzone of `FileUpload.tsx` accepts `text/*` wholesale and
the `.csv` extension, so a small `text/csv` file is accepted although it is
outside the claimed allow-list. -/
theorem C5_counterexample :
    HelixMind.fileAccepted
        { name := "assay_results.csv", type := "text/csv", size := 1024 } = true ∧
    HelixMind.specAllowList
        { name := "assay_results.csv", type := "text/csv", size := 1024 } = false := by
  exact ⟨by decide, by decide⟩

/-- **C5 amended.** Every file offered for upload is accepted only if its
size is at most 50 MB (52428800 bytes); conversely every file within that
ceiling whose mime class is in the spec's allow-list {pdf, image/*,
video/*, text/plain, fasta, pdb} is accepted — but the accepted set is
strictly larger than the spec's list: the dropzone accept configuration is
{application/pdf, image/*, video/*, text/*} together with the extensions
{.pdf, .png, .jpg, .jpeg, .gif, .webp, .mp4, .webm, .mov, .txt, .csv,
.fasta, .pdb}, so e.g. any `text/*` file (such as `text/csv`) is accepted
too. -/
theorem C5_amended_upload_accept (f : HelixMind.JSFile) :
    (HelixMind.fileAccepted f = true → f.size ≤ HelixMind.maxUploadSize) ∧
    (f.size ≤ HelixMind.maxUploadSize → HelixMind.specAllowList f = true →
      HelixMind.fileAccepted f = true) := by
  constructor
  · intro h
    have h2 := (Bool.and_eq_true _ _).mp h
    exact of_decide_eq_true h2.2
  · intro hsize hspec
    unfold HelixMind.fileAccepted
    rw [Bool.and_eq_true]
    refine ⟨?_, decide_eq_true hsize⟩
    apply List.any_eq_true.mpr
    unfold HelixMind.specAllowList at hspec
    simp only [Bool.or_eq_true, beq_iff_eq] at hspec
    rcases hspec with ((((h | h) | h) | h) | h) | h
    · exact ⟨"application/pdf", by decide,
        by rw [HelixMind.accepts_pdf_mime, h]; decide⟩
    · exact ⟨"image/*", by decide,
        by rw [HelixMind.accepts_image_any, h]; decide⟩
    · exact ⟨"video/*", by decide,
        by rw [HelixMind.accepts_video_any, h]; decide⟩
    · exact ⟨"text/*", by decide,
        by rw [HelixMind.accepts_text_any, h]; decide⟩
    · exact ⟨".fasta", by decide,
        by rw [HelixMind.accepts_fasta_ext]; exact h⟩
    · exact ⟨".pdb", by decide,
        by rw [HelixMind.accepts_pdb_ext]; exact h⟩

/-- **C5 witness.** The amended theorem applied at a concrete pdf file:
both directions discharged. -/
theorem C5_witness :
    ({ name := "paper.pdf", type := "application/pdf", size := 2048 }
        : HelixMind.JSFile).size ≤ HelixMind.maxUploadSize ∧
    HelixMind.fileAccepted
        { name := "paper.pdf", type := "application/pdf", size := 2048 } = true :=
  ⟨(C5_amended_upload_accept
      { name := "paper.pdf", type := "application/pdf", size := 2048 }).1 (by decide),
   (C5_amended_upload_accept
      { name := "paper.pdf", type := "application/pdf", size := 2048 }).2
      (by decide) (by decide)⟩

/-- **C6.** For every Analyze call that fails with an unrecoverable error,
the caller receives a terminal trace event (the `failMessage` step the
`catch` block appends), no partial answer is delivered (`result` stays
`none`, `charts` stays empty), and all trace events already streamed before
the failure are preserved — the delivered steps remain, with the terminal
event after them. -/
theorem C6_failure_preserves_trace (st : HelixMind.HomeState) (q : String)
    (n : Nat) (delivered : List String)
    (h : ¬(HelixMind.jsTrim q = "" ∧ n = 0)) :
    (HelixMind.handleAnalyze st q n delivered HelixMind.RunOutcome.failure).result
        = none ∧
    (HelixMind.handleAnalyze st q n delivered HelixMind.RunOutcome.failure).thinkingSteps
        = delivered ++ [HelixMind.failMessage] ∧
    (HelixMind.handleAnalyze st q n delivered HelixMind.RunOutcome.failure).charts
        = [] := by
  unfold HelixMind.handleAnalyze
  simp [h]

/-- **C6 witness.** A failing run over a concrete state with one already
delivered step. -/
theorem C6_witness :
    (HelixMind.handleAnalyze ⟨none, [], none, [], false⟩ "BRCA1" 0
        ["🔬 Initializing analysis pipeline..."]
        HelixMind.RunOutcome.failure).result = none ∧
    (HelixMind.handleAnalyze ⟨none, [], none, [], false⟩ "BRCA1" 0
        ["🔬 Initializing analysis pipeline..."]
        HelixMind.RunOutcome.failure).thinkingSteps
      = ["🔬 Initializing analysis pipeline..."] ++ [HelixMind.failMessage] ∧
    (HelixMind.handleAnalyze ⟨none, [], none, [], false⟩ "BRCA1" 0
        ["🔬 Initializing analysis pipeline..."]
        HelixMind.RunOutcome.failure).charts = [] :=
  C6_failure_preserves_trace ⟨none, [], none, [], false⟩ "BRCA1" 0
    ["🔬 Initializing analysis pipeline..."] (by decide)

/-- **C7.** Every end-to-end Analyze operation is subject to a
caller-visible time ceiling of two minutes: `analyzeData` posts with
`timeout: 120000` (= 2·60·1000 ms), and under the axios timeout contract a
run exceeding the ceiling is aborted with a timeout error rather than
continuing indefinitely — any run that resolves took at most the ceiling. -/
theorem C7_analyze_timeout :
    HelixMind.analyzeRequestConfig.timeout = 2 * 60 * 1000 ∧
    (∀ elapsedMs, HelixMind.analyzeRequestConfig.timeout < elapsedMs →
      HelixMind.axiosOutcome HelixMind.analyzeRequestConfig elapsedMs
        = HelixMind.AxiosOutcome.timeoutError) ∧
    (∀ elapsedMs,
      HelixMind.axiosOutcome HelixMind.analyzeRequestConfig elapsedMs
          = HelixMind.AxiosOutcome.resolved →
      elapsedMs ≤ HelixMind.analyzeRequestConfig.timeout) := by
  refine ⟨rfl, ?_, ?_⟩
  · intro e he
    simp [HelixMind.axiosOutcome, he]
  · intro e he
    by_contra hgt
    simp [HelixMind.axiosOutcome, Nat.lt_of_not_le hgt] at he

/-- **C7 witness.** One millisecond past the ceiling times out; a run that
resolved after 119000 ms was within the ceiling. -/
theorem C7_witness :
    HelixMind.axiosOutcome HelixMind.analyzeRequestConfig 120001
        = HelixMind.AxiosOutcome.timeoutError ∧
    (119000 : Nat) ≤ HelixMind.analyzeRequestConfig.timeout :=
  ⟨C7_analyze_timeout.2.1 120001 (by decide),
   C7_analyze_timeout.2.2 119000 (by decide)⟩

/-- **C8.** For every session, calling ClearMemory twice in a row leaves the
same state as calling it once: purging a session's records from the store is
idempotent (and, being a total function, the second call never errors); the
same holds for the panel state update `setMemories([])` in
`MemoryPanel.tsx`. -/
theorem C8_clear_idempotent (session_id : String)
    (store : List HelixMind.MemoryRecord) (panel : List HelixMind.MemoryItem) :
    HelixMind.MemoryStore.clear session_id
        (HelixMind.MemoryStore.clear session_id store)
      = HelixMind.MemoryStore.clear session_id store ∧
    HelixMind.clearMemoriesPanel (HelixMind.clearMemoriesPanel panel)
      = HelixMind.clearMemoriesPanel panel := by
  constructor
  · unfold HelixMind.MemoryStore.clear
    rw [List.filter_filter]
    simp
  · rfl

/-- **C9.** For every call to the buffered `analyzeData` with a
thinking-step callback supplied, the callback is first invoked with exactly
the four fixed client-generated placeholder steps, in their order, before
any request is sent to the backend, independent of the query, files and
session; only afterwards are the backend's actual `thinking_trace` entries
forwarded (so the full delivery sequence is the four placeholders followed
by the backend trace). -/
theorem C9_placeholder_steps (opts opts2 : HelixMind.AnalyzeOptions)
    (backendTrace : List String) :
    HelixMind.deliveriesBeforeRequest
        (HelixMind.analyzeDataTimeline opts true backendTrace)
      = HelixMind.thinkingSteps ∧
    HelixMind.thinkingSteps.length = 4 ∧
    HelixMind.deliveries (HelixMind.analyzeDataTimeline opts true backendTrace)
      = HelixMind.thinkingSteps ++ backendTrace ∧
    HelixMind.analyzeDataTimeline opts true backendTrace
      = HelixMind.analyzeDataTimeline opts2 true backendTrace := by
  refine ⟨?_, rfl, ?_, rfl⟩
  · simp [HelixMind.analyzeDataTimeline, HelixMind.thinkingSteps,
      HelixMind.deliveriesBeforeRequest]
  · simp [HelixMind.analyzeDataTimeline, HelixMind.thinkingSteps,
      HelixMind.deliveries_append, HelixMind.deliveries, HelixMind.deliveries_map]

/-- **C10.** For every byte stream consumed by the streaming Analyze client
(`analyzeWithStreaming`), a line that does not start with `data: `, or whose
payload is not valid JSON (`parse` yields `none`), is skipped without
raising an error — `processLine` is a total function — and leaves the
accumulated `AnalysisResult` (session_id, result, thinking_trace, charts)
and the callback log unchanged. -/
theorem C10_invalid_lines_skipped (parse : String → Option HelixMind.StreamEvent)
    (acc : HelixMind.AnalysisResult × List String) (line : String) :
    (HelixMind.jsStartsWith line "data: " = false →
      HelixMind.processLine parse acc line = acc) ∧
    (parse (line.drop 6) = none →
      HelixMind.processLine parse acc line = acc) := by
  constructor
  · intro h
    simp [HelixMind.processLine, h]
  · intro h
    unfold HelixMind.processLine
    by_cases hs : HelixMind.jsStartsWith line "data: " = true
    · simp [hs, h]
    · simp [hs]

/-- **C10 witness.** A non-`data:` line and a `data:` line with an invalid
payload both leave the accumulator unchanged. -/
theorem C10_witness :
    HelixMind.processLine (fun _ => none) (HelixMind.initResult "t", [])
        "event: ping" = (HelixMind.initResult "t", []) ∧
    HelixMind.processLine (fun _ => none) (HelixMind.initResult "t", [])
        "data: not json" = (HelixMind.initResult "t", []) :=
  ⟨(C10_invalid_lines_skipped (fun _ => none) (HelixMind.initResult "t", [])
      "event: ping").1 (by decide),
   (C10_invalid_lines_skipped (fun _ => none) (HelixMind.initResult "t", [])
      "data: not json").2 rfl⟩
